import Mathlib

/-!
Shallow embedding of the lottery prize-verification engine of
`lottery_scan` (`server.go`): number-set operations (`intersect`,
`combinations`), the three per-game verifiers (`DoubleColorVerifier`,
`LottoVerifier`, `Permutation5Verifier`), the label-based verifier
dispatch, and the per-ticket evaluation loop of `verifyHandler`.

Go `string` tokens are Lean `String`, Go slices are Lean `List`, Go
`int`/`int64` are modelled as `Int`; 64-bit wrap-around is applied
explicitly (`int64wrap`) at the evaluator's payout arithmetic, the one
place the spec discusses overflow.  The nested `for` loops of the
verifiers become left folds over the same sequence of iterations.
-/

namespace LotteryScan

/-- `UserTicket` (server.go lines 33-38).  `mode` is carried but unused by
scoring. -/
structure UserTicket where
  red : List String
  blue : List String
  multiplier : Int
  mode : String
deriving Repr, DecidableEq

/-- `WinningNumbers` (server.go lines 67-70). -/
structure WinningNumbers where
  red : List String
  blue : List String
deriving Repr, DecidableEq

/-- `ResultDetail` (server.go lines 60-65). -/
structure ResultDetail where
  rowIndex : Nat
  level : Nat
  prize : Int
  status : String
deriving Repr, DecidableEq

/-- `intersect` (server.go lines 76-88): builds a membership set from `b`
and counts the elements of `a` that are in it. -/
def intersect (a b : List String) : Nat :=
  a.foldl (fun count x => if x ∈ b then count + 1 else count) 0

/-- `combinations` (server.go lines 90-104): all size-`r` combinations of
`iterable`, those containing the head first. -/
def combinations {α : Type} (iterable : List α) (r : Nat) : List (List α) :=
  match r, iterable with
  | 0, _ => [[]]
  | _ + 1, [] => []
  | r + 1, head :: tail =>
      ((combinations tail r).map (fun comb => head :: comb)) ++ combinations tail (r + 1)

/-- The blue-hit test of `DoubleColorVerifier.Verify` (server.go lines
120-123): `blueHits = 1` iff `win.Blue` is nonempty and the chosen blue
token equals `win.Blue[0]`. -/
def blueHits (win : WinningNumbers) (b : String) : Nat :=
  match win.blue with
  | [] => 0
  | wb :: _ => if b = wb then 1 else 0

/-- The tier table of `DoubleColorVerifier.Verify` (server.go lines
125-142), as the `(level, money)` the if-chain assigns to
`(redHits, blueHits)`. -/
def dcTier (redHits hitsBlue : Nat) : Nat × Int :=
  if redHits = 6 ∧ hitsBlue = 1 then (1, 5000000)
  else if redHits = 6 ∧ hitsBlue = 0 then (2, 100000)
  else if redHits = 5 ∧ hitsBlue = 1 then (3, 3000)
  else if redHits = 5 ∧ hitsBlue = 0 then (4, 200)
  else if redHits = 4 ∧ hitsBlue = 1 then (4, 200)
  else if redHits = 4 ∧ hitsBlue = 0 then (5, 10)
  else if redHits = 3 ∧ hitsBlue = 1 then (5, 10)
  else if hitsBlue = 1 then (6, 5)
  else (0, 0)

/-- The iteration space of the nested loops of
`DoubleColorVerifier.Verify` (server.go lines 117-118): each `redComb`
paired with each selected blue token, in loop order. -/
def pairAll {α β : Type} (xs : List α) (ys : List β) : List (α × β) :=
  xs.foldr (fun x acc => ys.map (fun y => (x, y)) ++ acc) []

/-- One iteration of the loop body of `DoubleColorVerifier.Verify`
(server.go lines 119-149), acting on the `(bestLevel, totalMoney)`
state. -/
def dcStep (win : WinningNumbers) (acc : Nat × Int) (p : List String × String) : Nat × Int :=
  let redHits := intersect p.1 win.red
  let hitsBlue := blueHits win p.2
  let lm := dcTier redHits hitsBlue
  if lm.2 > 0 then
    (if acc.1 = 0 ∨ lm.1 < acc.1 then lm.1 else acc.1, acc.2 + lm.2)
  else acc

/-- `DoubleColorVerifier.Verify` (server.go lines 113-157).  Go's `int64`
accumulation is modelled as exact `Int`. -/
def dcVerify (t : UserTicket) (win : WinningNumbers) : Nat × Int × String :=
  let redCombs := combinations t.red 6
  let st := (pairAll redCombs t.blue).foldl (dcStep win) (0, 0)
  let status := if st.2 > 0 then s!"中奖: {st.2}元" else "未中奖"
  (st.1, st.2, status)

/-- The tier table of `LottoVerifier.Verify` (server.go lines 167-193),
as the `(level, money)` the if-chain assigns to `(redHits, blueHits)`. -/
def lottoTier (redHits hitsBlue : Nat) : Nat × Int :=
  if redHits = 5 ∧ hitsBlue = 2 then (1, 10000000)
  else if redHits = 5 ∧ hitsBlue = 1 then (2, 200000)
  else if redHits = 5 ∧ hitsBlue = 0 then (3, 10000)
  else if redHits = 4 ∧ hitsBlue = 2 then (4, 3000)
  else if redHits = 4 ∧ hitsBlue = 1 then (5, 300)
  else if redHits = 3 ∧ hitsBlue = 2 then (6, 200)
  else if redHits = 4 ∧ hitsBlue = 0 then (7, 100)
  else if redHits = 3 ∧ hitsBlue = 1 then (8, 15)
  else if redHits = 2 ∧ hitsBlue = 2 then (8, 15)
  else if redHits = 3 ∧ hitsBlue = 0 then (9, 5)
  else if redHits = 2 ∧ hitsBlue = 1 then (9, 5)
  else if redHits = 1 ∧ hitsBlue = 2 then (9, 5)
  else if redHits = 0 ∧ hitsBlue = 2 then (9, 5)
  else (0, 0)

/-- `LottoVerifier.Verify` (server.go lines 162-200): a single lookup on
the intersection counts of the full red and blue token lists. -/
def lottoVerify (t : UserTicket) (win : WinningNumbers) : Nat × Int × String :=
  let lm := lottoTier (intersect t.red win.red) (intersect t.blue win.blue)
  let status := if lm.2 > 0 then s!"中奖: {lm.2}元" else "未中奖"
  (lm.1, lm.2, status)

/-- `Permutation5Verifier.Verify` (server.go lines 205-221): both red
lists must have length 5 and agree position by position. -/
def p5Verify (t : UserTicket) (win : WinningNumbers) : Nat × Int × String :=
  let same : Bool :=
    if t.red.length = 5 ∧ win.red.length = 5 then
      (List.range 5).all (fun i => t.red.getD i "" == win.red.getD i "")
    else false
  if same then (1, 100000, "一等奖") else (0, 0, "未中奖")

/-- Two's-complement wrap-around of Go `int64` arithmetic. -/
def int64wrap (n : Int) : Int :=
  (n + 2 ^ 63) % 2 ^ 64 - 2 ^ 63

/-- The per-row payout of `verifyHandler` (server.go line 435):
`total := prize * int64(t.Multiplier)`, a wrapping `int64` product. -/
def rowTotal (prize mult : Int) : Int :=
  int64wrap (prize * mult)

/-- `strings.Contains` on the game label (server.go lines 417-422). -/
def goContains (s sub : String) : Bool :=
  decide (sub.toList <:+: s.toList)

/-- The verifier-selection chain of `verifyHandler` (server.go lines
416-423): first matching label substring wins, otherwise no verifier. -/
def resolveVerifier (label : String) :
    Option (UserTicket → WinningNumbers → Nat × Int × String) :=
  if goContains label "双色球" then some dcVerify
  else if goContains label "大乐透" then some lottoVerify
  else if goContains label "排列5" then some p5Verify
  else none

/-- The scoring loop of `verifyHandler` (server.go lines 432-441): verify
each row, multiply by the stake multiplier, accumulate the ticket total
(`int64` additions wrap), and append a detail with 1-based row index. -/
def evalWith (verify : UserTicket → WinningNumbers → Nat × Int × String)
    (tickets : List UserTicket) (win : WinningNumbers) : Int × List ResultDetail :=
  tickets.enum.foldl
    (fun acc rowT =>
      let r := verify rowT.2 win
      let total := rowTotal r.2.1 rowT.2.multiplier
      (int64wrap (acc.1 + total),
       acc.2 ++ [⟨rowT.1 + 1, r.1, total, r.2.2⟩]))
    (0, [])

/-- The per-lottery body of `verifyHandler` (server.go lines 425-444):
dispatch on the label; without a verifier the result is total 0 with the
single unsupported-game detail (all other fields zero-valued). -/
def evalLottery (label : String) (tickets : List UserTicket) (win : WinningNumbers) :
    Int × List ResultDetail :=
  match resolveVerifier label with
  | some v => evalWith v tickets win
  | none => (0, [⟨0, 0, 0, "暂不支持该彩种验奖"⟩])

example : intersect ["02", "11", "15"] ["11", "15", "21"] = 2 := by decide
example : (combinations ["a", "b", "c", "d"] 2).length = 6 := by decide
example : combinations ["a", "b", "c"] 2 = [["a", "b"], ["a", "c"], ["b", "c"]] := by decide
example :
    (dcVerify ⟨["02", "11", "15", "21", "28", "33"], ["07"], 1, ""⟩
      ⟨["02", "11", "15", "21", "28", "33"], ["07"]⟩).1 = 1 := by decide
example :
    (dcVerify ⟨["02", "11", "15", "21", "28", "33"], ["06"], 1, ""⟩
      ⟨["02", "11", "15", "21", "28", "33"], ["07"]⟩).2.1 = 100000 := by decide
example :
    (lottoVerify ⟨["01", "02", "03", "04", "05"], ["01", "02"], 1, ""⟩
      ⟨["01", "02", "03", "04", "05"], ["01", "02"]⟩).2.1 = 10000000 := by decide
example :
    (p5Verify ⟨["1", "2", "3", "4", "5"], [], 1, ""⟩
      ⟨["1", "2", "3", "4", "5"], []⟩).1 = 1 := by decide
example :
    (p5Verify ⟨["5", "4", "3", "2", "1"], [], 1, ""⟩
      ⟨["1", "2", "3", "4", "5"], []⟩).2.1 = 0 := by decide
example : goContains "福利双色球彩票" "双色球" = true := by decide
example : goContains "Scratch-off" "双色球" = false := by decide

/-! ### Lemmas about `combinations` -/

theorem combinations_zero {α : Type} (l : List α) : combinations l 0 = [[]] := by
  cases l <;> rfl

theorem combinations_nil {α : Type} (r : Nat) (h : 0 < r) : combinations ([] : List α) r = [] := by
  cases r with
  | zero => omega
  | succ r => rfl

theorem combinations_cons {α : Type} (h : α) (t : List α) (r : Nat) :
    combinations (h :: t) (r + 1) =
      ((combinations t r).map (fun comb => h :: comb)) ++ combinations t (r + 1) := rfl

theorem combinations_length {α : Type} (l : List α) (r : Nat) :
    (combinations l r).length = Nat.choose l.length r := by
  induction l generalizing r with
  | nil =>
      cases r with
      | zero => rfl
      | succ r => rfl
  | cons h t ih =>
      cases r with
      | zero => rfl
      | succ r =>
          rw [combinations_cons]
          simp only [List.length_append, List.length_map, ih, List.length_cons,
            Nat.choose_succ_succ]

theorem combinations_eq_nil_of_lt {α : Type} (l : List α) (r : Nat) (h : l.length < r) :
    combinations l r = [] := by
  have hlen : (combinations l r).length = 0 := by
    rw [combinations_length, Nat.choose_eq_zero_of_lt h]
  exact List.length_eq_zero.mp hlen

theorem mem_combinations {α : Type} (l : List α) (r : Nat) (c : List α)
    (hc : c ∈ combinations l r) : c.length = r ∧ c.Sublist l := by
  induction l generalizing r c with
  | nil =>
      cases r with
      | zero => simp only [combinations_zero, List.mem_singleton] at hc; simp [hc]
      | succ r => simp [combinations_nil] at hc
  | cons h t ih =>
      cases r with
      | zero =>
          simp only [combinations_zero, List.mem_singleton] at hc
          simp [hc]
      | succ r =>
          rw [combinations_cons, List.mem_append] at hc
          rcases hc with hc | hc
          · rcases List.mem_map.mp hc with ⟨c', hc', rfl⟩
            rcases ih r c' hc' with ⟨hlen, hsub⟩
            exact ⟨by simp [hlen], List.Sublist.cons₂ h hsub⟩
          · rcases ih (r + 1) c hc with ⟨hlen, hsub⟩
            exact ⟨hlen, hsub.cons h⟩

theorem combinations_sublist_append_singleton {α : Type} (l : List α) (x : α) (r : Nat) :
    (combinations l r).Sublist (combinations (l ++ [x]) r) := by
  induction l generalizing r with
  | nil =>
      cases r with
      | zero => simp [combinations_zero]
      | succ r => simp [combinations_nil]
  | cons h t ih =>
      cases r with
      | zero => simp [combinations_zero]
      | succ r =>
          rw [List.cons_append, combinations_cons, combinations_cons]
          exact List.Sublist.append ((ih r).map _) (ih (r + 1))

theorem combinations_map {α β : Type} (f : α → β) (l : List α) (r : Nat) :
    combinations (l.map f) r = (combinations l r).map (List.map f) := by
  induction l generalizing r with
  | nil =>
      cases r with
      | zero => rfl
      | succ r => rfl
  | cons h t ih =>
      cases r with
      | zero => rfl
      | succ r =>
          rw [List.map_cons, combinations_cons, combinations_cons]
          simp only [List.map_append, List.map_map, ih]
          rfl

theorem combinations_nodup {α : Type} [DecidableEq α] (l : List α) (r : Nat)
    (hl : l.Nodup) : (combinations l r).Nodup := by
  induction l generalizing r with
  | nil =>
      cases r with
      | zero => simp [combinations_zero]
      | succ r => simp [combinations_nil]
  | cons h t ih =>
      cases r with
      | zero => simp [combinations_zero]
      | succ r =>
          rw [combinations_cons]
          rcases List.nodup_cons.mp hl with ⟨hmem, ht⟩
          refine List.Nodup.append ?_ (ih (r + 1) ht) ?_
          · exact (ih r ht).map (fun a b hab => by injection hab)
          · intro c hc1 hc2
            rcases List.mem_map.mp hc1 with ⟨c', _, rfl⟩
            have hsub := (mem_combinations t (r + 1) _ hc2).2
            exact hmem (hsub.subset (List.mem_cons_self h c'))

/-! ### Lemmas about `intersect` -/

theorem intersect_foldl (b : List String) (a : List String) (n : Nat) :
    a.foldl (fun count x => if x ∈ b then count + 1 else count) n =
      n + a.countP (fun x => decide (x ∈ b)) := by
  induction a generalizing n with
  | nil => simp
  | cons x a ih =>
      simp only [List.foldl_cons, List.countP_cons, ih]
      by_cases hx : x ∈ b
      · simp [hx]
        omega
      · simp [hx]

theorem intersect_eq_countP (a b : List String) :
    intersect a b = a.countP (fun x => decide (x ∈ b)) := by
  unfold intersect
  simpa using intersect_foldl b a 0

/-- C5: `combinations l r` yields exactly `C(len l, r)` combinations,
each of size `r` and a sublist of `l` (order-preserving); they are
pairwise distinct as index subsets (over the indexed list `l.enum` the
output has no duplicates, and the actual output is its token
projection); `r = 0` yields exactly the empty combination and
`r > len l` yields none. -/
theorem combinations_complete_spec (l : List String) (r : Nat) :
    (combinations l r).length = Nat.choose l.length r ∧
    (∀ c ∈ combinations l r, c.length = r ∧ c.Sublist l) ∧
    (combinations l.enum r).Nodup ∧
    combinations l r = (combinations l.enum r).map (List.map Prod.snd) ∧
    combinations l 0 = [[]] ∧
    (l.length < r → combinations l r = []) := by
  have henum : l.enum.Nodup :=
    List.Nodup.of_map Prod.fst (by simpa using List.nodup_enum_map_fst l)
  refine ⟨combinations_length l r, fun c hc => mem_combinations l r c hc, ?_, ?_,
    combinations_zero l, combinations_eq_nil_of_lt l r⟩
  · exact combinations_nodup l.enum r henum
  · conv_lhs => rw [← List.enum_map_snd l]
    exact combinations_map Prod.snd l.enum r

theorem combinations_complete_spec_witness :
    (combinations ["01", "02", "03"] 2).length = Nat.choose 3 2 ∧
    combinations ["01", "02", "03"] 4 = [] ∧
    (["01", "02"].length = 2 ∧ ["01", "02"].Sublist ["01", "02", "03"]) := by
  refine ⟨?_, ?_, ?_⟩
  · simpa using (combinations_complete_spec ["01", "02", "03"] 2).1
  · exact (combinations_complete_spec ["01", "02", "03"] 4).2.2.2.2.2 (by decide)
  · exact (combinations_complete_spec ["01", "02", "03"] 2).2.1 ["01", "02"] (by decide)

/-- C6: `intersect a b` counts the positions of `a` whose token occurs in
`b` (`b` as a set, duplicates of `a` counted per occurrence); disjoint
lists give 0, and full containment of `a` in `b` gives `len a`. -/
theorem intersect_spec (a b : List String) :
    intersect a b = a.countP (fun x => decide (x ∈ b)) ∧
    ((∀ x ∈ a, x ∉ b) → intersect a b = 0) ∧
    ((∀ x ∈ a, x ∈ b) → intersect a b = a.length) := by
  refine ⟨intersect_eq_countP a b, ?_, ?_⟩
  · intro h
    rw [intersect_eq_countP]
    exact List.countP_eq_zero.mpr (by simpa using h)
  · intro h
    rw [intersect_eq_countP]
    exact List.countP_eq_length.mpr (by simpa using h)

theorem intersect_spec_witness :
    intersect ["01", "02"] ["03", "04"] = 0 ∧
    intersect ["01", "02"] ["02", "01", "05"] = 2 := by
  constructor
  · exact (intersect_spec ["01", "02"] ["03", "04"]).2.1 (by decide)
  · have h := (intersect_spec ["01", "02"] ["02", "01", "05"]).2.2 (by decide)
    simpa using h

/-! ### The `DoubleColorVerifier` fold, characterised -/

/-- Minimum on `Nat` with `0` standing for "no value yet", as
`bestLevel` uses it. -/
def minL (a b : Nat) : Nat :=
  if a = 0 then b else if b = 0 then a else min a b

theorem minL_zero_left (b : Nat) : minL 0 b = b := rfl

theorem minL_zero_right (a : Nat) : minL a 0 = a := by
  unfold minL; split_ifs <;> omega

theorem minL_assoc (a b c : Nat) : minL (minL a b) c = minL a (minL b c) := by
  unfold minL; split_ifs <;> omega

/-- The `(level, money)` a single loop iteration of
`DoubleColorVerifier.Verify` assigns to the pair `p`. -/
def dcPairTier (win : WinningNumbers) (p : List String × String) : Nat × Int :=
  dcTier (intersect p.1 win.red) (blueHits win p.2)

/-- The level a pair contributes to the running best, `0` for pairs that
hit no tier. -/
def effLevel (win : WinningNumbers) (p : List String × String) : Nat :=
  if 0 < (dcPairTier win p).2 then (dcPairTier win p).1 else 0

theorem dcTier_cases (r b : Nat) :
    ((dcTier r b).2 = 0 ∧ (dcTier r b).1 = 0) ∨
      (0 < (dcTier r b).2 ∧ 1 ≤ (dcTier r b).1 ∧ (dcTier r b).1 ≤ 6) := by
  unfold dcTier; split_ifs <;> simp

theorem dcTier_snd_nonneg (r b : Nat) : 0 ≤ (dcTier r b).2 := by
  rcases dcTier_cases r b with ⟨h, -⟩ | ⟨h, -⟩
  · omega
  · omega

theorem dcStep_eq (win : WinningNumbers) (acc : Nat × Int) (p : List String × String) :
    dcStep win acc p = (minL acc.1 (effLevel win p), acc.2 + (dcPairTier win p).2) := by
  unfold dcStep effLevel dcPairTier
  rcases dcTier_cases (intersect p.1 win.red) (blueHits win p.2) with ⟨h2, h1⟩ | ⟨h2, h1, h6⟩
  · simp only [h2, h1]
    norm_num
    simp [minL_zero_right]
  · simp only [if_pos h2, h2]
    refine Prod.ext ?_ rfl
    simp only [minL]
    split_ifs <;> omega

theorem dcFoldl (win : WinningNumbers) (ps : List (List String × String)) (acc : Nat × Int) :
    ps.foldl (dcStep win) acc =
      (minL acc.1 ((ps.map (effLevel win)).foldr minL 0),
       acc.2 + (ps.map (fun p => (dcPairTier win p).2)).sum) := by
  induction ps generalizing acc with
  | nil => simp [minL_zero_right]
  | cons p ps ih =>
      rw [List.foldl_cons, ih, dcStep_eq]
      simp only [List.map_cons, List.foldr_cons, List.sum_cons]
      rw [minL_assoc, Int.add_assoc]

theorem dcEffLevel_foldr_eq_filterMap (win : WinningNumbers)
    (ps : List (List String × String)) :
    (ps.map (effLevel win)).foldr minL 0 =
      ((ps.filterMap
          (fun p => if 0 < (dcPairTier win p).2 then some (dcPairTier win p).1 else none)).foldr
        minL 0) := by
  induction ps with
  | nil => rfl
  | cons p ps ih =>
      simp only [List.map_cons, List.foldr_cons, List.filterMap_cons]
      by_cases hp : 0 < (dcPairTier win p).2
      · simp only [if_pos hp, effLevel, List.foldr_cons, ih]
      · simp only [if_neg hp, effLevel, minL_zero_left, ih]

theorem foldl_min_min (ys : List Nat) (x y : Nat) :
    ys.foldl min (min x y) = min x (ys.foldl min y) := by
  induction ys generalizing y with
  | nil => rfl
  | cons z ys ih =>
      simp only [List.foldl_cons]
      rw [Nat.min_assoc, ih]

theorem foldl_min_pos (ys : List Nat) (x : Nat) (hx : 0 < x) (hys : ∀ z ∈ ys, 0 < z) :
    0 < ys.foldl min x := by
  induction ys generalizing x with
  | nil => exact hx
  | cons z ys ih =>
      simp only [List.foldl_cons]
      exact ih (min x z) (lt_min hx (hys z (by simp))) (fun w hw => hys w (by simp [hw]))

theorem foldr_minL_eq_min? (ls : List Nat) (h : ∀ x ∈ ls, 0 < x) :
    ls.foldr minL 0 = (ls.min?).getD 0 := by
  induction ls with
  | nil => rfl
  | cons x xs ih =>
      have hx : 0 < x := h x (by simp)
      have hxs : ∀ z ∈ xs, 0 < z := fun z hz => h z (by simp [hz])
      simp only [List.foldr_cons, ih hxs]
      cases xs with
      | nil => simp [minL_zero_right, List.min?]
      | cons y ys =>
          have hpos : 0 < (y :: ys).foldl min y := by
            refine foldl_min_pos ys y (hxs y (by simp)) (fun z hz => hxs z (by simp [hz])) |>.trans_le ?_
            simp [List.foldl_cons]
          have hmin : ((y :: ys).min?).getD 0 = ys.foldl min y := by
            simp [List.min?]
          rw [hmin]
          have hys0 : 0 < ys.foldl min y :=
            foldl_min_pos ys y (hxs y (by simp)) (fun z hz => hxs z (by simp [hz]))
          have : ((x :: y :: ys).min?).getD 0 = ys.foldl min (min x y) := by
            simp [List.min?]
          rw [this, foldl_min_min]
          unfold minL
          split_ifs <;> omega

theorem dcVerify_fst (t : UserTicket) (win : WinningNumbers) :
    (dcVerify t win).1 =
      ((pairAll (combinations t.red 6) t.blue).foldl (dcStep win) (0, 0)).1 := rfl

theorem dcVerify_money (t : UserTicket) (win : WinningNumbers) :
    (dcVerify t win).2.1 =
      ((pairAll (combinations t.red 6) t.blue).foldl (dcStep win) (0, 0)).2 := rfl

theorem dcMoney_sum_filter (win : WinningNumbers) (ps : List (List String × String)) :
    (ps.map (fun p => (dcPairTier win p).2)).sum =
      ((ps.filter (fun p => decide (0 < (dcPairTier win p).2))).map
        (fun p => (dcPairTier win p).2)).sum := by
  induction ps with
  | nil => rfl
  | cons p ps ih =>
      simp only [List.map_cons, List.sum_cons, List.filter_cons]
      by_cases hp : 0 < (dcPairTier win p).2
      · simp [hp, ih]
      · have h0 : (dcPairTier win p).2 = 0 := by
          rcases dcTier_cases (intersect p.1 win.red) (blueHits win p.2) with ⟨h, -⟩ | ⟨h, -⟩
          · exact h
          · exact absurd h hp
        simp [hp, h0, ih]

/-- The levels of the pairs of `DoubleColorVerifier.Verify` that hit a
tier, in iteration order. -/
def dcWinningLevels (t : UserTicket) (win : WinningNumbers) : List Nat :=
  (pairAll (combinations t.red 6) t.blue).filterMap
    (fun p => if 0 < (dcPairTier win p).2 then some (dcPairTier win p).1 else none)

theorem dcWinningLevels_pos (t : UserTicket) (win : WinningNumbers) :
    ∀ x ∈ dcWinningLevels t win, 0 < x := by
  intro x hx
  rcases List.mem_filterMap.mp hx with ⟨p, -, hp⟩
  by_cases h : 0 < (dcPairTier win p).2
  · rw [if_pos h] at hp
    injection hp with hp
    subst hp
    rcases dcTier_cases (intersect p.1 win.red) (blueHits win p.2) with ⟨h2, -⟩ | ⟨-, h1, -⟩
    · exact absurd (by simpa [dcPairTier] using h) (by simp [h2])
    · simpa [dcPairTier] using h1
  · rw [if_neg h] at hp
    cases hp

/-- C1: `DoubleColorVerifier.Verify` enumerates every (6-token red
combination, selected blue token) pair; each pair is resolved against the
tier table on `(redHits, blueHits)`; `totalPayout` is the sum of the
payouts of the pairs that hit a tier, and the returned rank is the
numerically smallest rank among those pairs (`0` when none).  The last
two conjunct groups pin the tier table down extensionally: the seven
listed entries, the `(anything, blue hit) → (6, 5)` fallback, and no tier
anywhere else. -/
theorem dcVerify_complete_spec (t : UserTicket) (win : WinningNumbers) :
    (dcVerify t win).2.1 =
      (((pairAll (combinations t.red 6) t.blue).filter
          (fun p => decide (0 < (dcPairTier win p).2))).map
        (fun p => (dcPairTier win p).2)).sum ∧
    (dcVerify t win).1 = ((dcWinningLevels t win).min?).getD 0 ∧
    (dcTier 6 1 = (1, 5000000) ∧ dcTier 6 0 = (2, 100000) ∧ dcTier 5 1 = (3, 3000) ∧
      dcTier 5 0 = (4, 200) ∧ dcTier 4 1 = (4, 200) ∧ dcTier 4 0 = (5, 10) ∧
      dcTier 3 1 = (5, 10)) ∧
    (∀ r b, b = 1 → r ≠ 6 → r ≠ 5 → r ≠ 4 → r ≠ 3 → dcTier r b = (6, 5)) ∧
    (∀ r b, b ≠ 1 → ¬(r = 6 ∧ b = 0) → ¬(r = 5 ∧ b = 0) → ¬(r = 4 ∧ b = 0) →
      dcTier r b = (0, 0)) ∧
    (win.blue = [] → ∀ b, blueHits win b = 0) ∧
    (∀ wb rest, win.blue = wb :: rest → ∀ b, blueHits win b = if b = wb then 1 else 0) := by
  refine ⟨?_, ?_, by decide, ?_, ?_, ?_, ?_⟩
  · rw [dcVerify_money, dcFoldl]
    simpa using dcMoney_sum_filter win (pairAll (combinations t.red 6) t.blue)
  · rw [dcVerify_fst, dcFoldl]
    simp only [minL_zero_left]
    rw [dcEffLevel_foldr_eq_filterMap]
    exact foldr_minL_eq_min? _ (dcWinningLevels_pos t win)
  · intro r b hb h6 h5 h4 h3
    unfold dcTier
    split_ifs <;> first | rfl | (exfalso; omega)
  · intro r b hb h6 h5 h4
    unfold dcTier
    split_ifs <;> first | rfl | (exfalso; omega)
  · intro h b
    unfold blueHits
    rw [h]
  · intro wb rest h b
    unfold blueHits
    rw [h]

theorem dcVerify_complete_spec_witness :
    (dcVerify ⟨["02", "11", "15", "21", "28", "33", "01"], ["07"], 1, ""⟩
        ⟨["02", "11", "15", "21", "28", "33"], ["07"]⟩).2.1 = 5018000 ∧
    (dcVerify ⟨["02", "11", "15", "21", "28", "33", "01"], ["07"], 1, ""⟩
        ⟨["02", "11", "15", "21", "28", "33"], ["07"]⟩).1 = 1 ∧
    dcTier 2 1 = (6, 5) ∧ dcTier 2 0 = (0, 0) := by
  have h := dcVerify_complete_spec
    ⟨["02", "11", "15", "21", "28", "33", "01"], ["07"], 1, ""⟩
    ⟨["02", "11", "15", "21", "28", "33"], ["07"]⟩
  refine ⟨?_, ?_, ?_, ?_⟩
  · rw [h.1]; decide
  · rw [h.2.1]; decide
  · exact h.2.2.2.1 2 1 rfl (by decide) (by decide) (by decide) (by decide)
  · exact h.2.2.2.2.1 2 0 (by decide) (by decide) (by decide) (by decide)

/-! ### Monotonicity of `DoubleColorVerifier.Verify` in red tokens -/

theorem pairAll_nil {α β : Type} (ys : List β) : pairAll ([] : List α) ys = [] := rfl

theorem pairAll_cons {α β : Type} (x : α) (xs : List α) (ys : List β) :
    pairAll (x :: xs) ys = ys.map (fun y => (x, y)) ++ pairAll xs ys := rfl

theorem pairAll_sublist_left {α β : Type} {xs₁ xs₂ : List α} (ys : List β)
    (h : xs₁.Sublist xs₂) : (pairAll xs₁ ys).Sublist (pairAll xs₂ ys) := by
  induction h with
  | slnil => exact List.Sublist.refl _
  | cons x h ih =>
      rw [pairAll_cons]
      exact ih.trans (List.sublist_append_right _ _)
  | cons₂ x h ih =>
      rw [pairAll_cons, pairAll_cons]
      exact ih.append_left _

/-- C9: holding the blue selection fixed, appending a winning red token
`x` that the row does not already hold never decreases the total payout
of `DoubleColorVerifier.Verify`. -/
theorem dcVerify_red_monotone (t : UserTicket) (win : WinningNumbers) (x : String)
    (_hwin : x ∈ win.red) (_hnew : x ∉ t.red) :
    (dcVerify t win).2.1 ≤ (dcVerify { t with red := t.red ++ [x] } win).2.1 := by
  rw [dcVerify_money, dcVerify_money, dcFoldl, dcFoldl]
  simp only [Int.zero_add]
  refine List.Sublist.sum_le_sum ?_ ?_
  · exact (pairAll_sublist_left t.blue (combinations_sublist_append_singleton t.red x 6)).map _
  · intro a ha
    rcases List.mem_map.mp ha with ⟨p, -, rfl⟩
    exact dcTier_snd_nonneg _ _

theorem dcVerify_red_monotone_witness :
    ("33" : String) ∈ (⟨["02", "11", "15", "21", "28", "33"], ["07"]⟩ : WinningNumbers).red ∧
    ("33" : String) ∉ ["02", "11", "15", "21", "28"] ∧
    (dcVerify ⟨["02", "11", "15", "21", "28"], ["07"], 1, ""⟩
        ⟨["02", "11", "15", "21", "28", "33"], ["07"]⟩).2.1 ≤
      (dcVerify ⟨["02", "11", "15", "21", "28", "33"], ["07"], 1, ""⟩
        ⟨["02", "11", "15", "21", "28", "33"], ["07"]⟩).2.1 := by
  refine ⟨by decide, by decide, ?_⟩
  exact dcVerify_red_monotone ⟨["02", "11", "15", "21", "28"], ["07"], 1, ""⟩
    ⟨["02", "11", "15", "21", "28", "33"], ["07"]⟩ "33" (by decide) (by decide)

/-! ### `LottoVerifier` against the claimed tier table -/

/-- Modelled from the spec: the Lotto tier table as an extensional map on
`(redHits, blueHits)`, written as disjoint cases rather than the code's
if-chain. -/
def lottoTable (redHits hitsBlue : Nat) : Nat × Int :=
  match redHits, hitsBlue with
  | 5, 2 => (1, 10000000)
  | 5, 1 => (2, 200000)
  | 5, 0 => (3, 10000)
  | 4, 2 => (4, 3000)
  | 4, 1 => (5, 300)
  | 3, 2 => (6, 200)
  | 4, 0 => (7, 100)
  | 3, 1 => (8, 15)
  | 2, 2 => (8, 15)
  | 3, 0 => (9, 5)
  | 2, 1 => (9, 5)
  | 1, 2 => (9, 5)
  | 0, 2 => (9, 5)
  | _, _ => (0, 0)

theorem lottoTier_eq_table (r b : Nat) : lottoTier r b = lottoTable r b := by
  unfold lottoTier
  rcases r with _ | _ | _ | _ | _ | _ | r <;> rcases b with _ | _ | _ | b <;>
    simp [lottoTable]

theorem lottoVerify_fst (t : UserTicket) (win : WinningNumbers) :
    (lottoVerify t win).1 =
      (lottoTier (intersect t.red win.red) (intersect t.blue win.blue)).1 := rfl

theorem lottoVerify_money (t : UserTicket) (win : WinningNumbers) :
    (lottoVerify t win).2.1 =
      (lottoTier (intersect t.red win.red) (intersect t.blue win.blue)).2 := rfl

/-- C4: `LottoVerifier.Verify` computes the red and blue intersection
counts over the full token lists and returns exactly the `(rank, payout)`
of the claimed table, `(0, 0)` off the table, by one direct lookup. -/
theorem lottoVerify_complete_spec (t : UserTicket) (win : WinningNumbers) :
    (lottoVerify t win).1 =
      (lottoTable (intersect t.red win.red) (intersect t.blue win.blue)).1 ∧
    (lottoVerify t win).2.1 =
      (lottoTable (intersect t.red win.red) (intersect t.blue win.blue)).2 := by
  rw [lottoVerify_fst, lottoVerify_money, lottoTier_eq_table]
  exact ⟨rfl, rfl⟩

/-! ### `Permutation5Verifier`: exact, position-sensitive match -/

theorem p5_match_true_iff (t : UserTicket) (win : WinningNumbers) :
    ((if t.red.length = 5 ∧ win.red.length = 5 then
        (List.range 5).all (fun i => t.red.getD i "" == win.red.getD i "")
      else false) = true) ↔
      (t.red.length = 5 ∧ win.red.length = 5 ∧ t.red = win.red) := by
  by_cases h : t.red.length = 5 ∧ win.red.length = 5
  · rw [if_pos h]
    rcases h with ⟨ht, hw⟩
    simp only [List.all_eq_true, List.mem_range, beq_iff_eq, ht, hw, true_and]
    constructor
    · intro hall
      refine List.ext_getElem (by omega) ?_
      intro i h1 h2
      have := hall i (by omega)
      rwa [List.getD_eq_getElem t.red "" h1, List.getD_eq_getElem win.red "" h2] at this
    · intro heq i hi
      rw [heq]
  · rw [if_neg h]
    simp only [Bool.false_eq_true, false_iff]
    intro hc
    exact h ⟨hc.1, hc.2.1⟩

theorem p5Verify_eq_of_match (t : UserTicket) (win : WinningNumbers)
    (h : t.red.length = 5 ∧ win.red.length = 5 ∧ t.red = win.red) :
    p5Verify t win = (1, 100000, "一等奖") := by
  unfold p5Verify
  rw [if_pos ((p5_match_true_iff t win).mpr h)]

theorem p5Verify_eq_of_no_match (t : UserTicket) (win : WinningNumbers)
    (h : ¬(t.red.length = 5 ∧ win.red.length = 5 ∧ t.red = win.red)) :
    p5Verify t win = (0, 0, "未中奖") := by
  unfold p5Verify
  rw [if_neg (fun hc => h ((p5_match_true_iff t win).mp hc))]

theorem reverse_ne_self_of_nodup_len5 (l : List String) (h5 : l.length = 5)
    (hnd : l.Nodup) : l.reverse ≠ l := by
  intro h
  have h0 : (0 : Nat) < l.length := by omega
  have h4 : (4 : Nat) < l.length := by omega
  have hr0 : (0 : Nat) < l.reverse.length := by simpa using h0
  have hrev : l.reverse[0] = l[4] := by
    rw [List.getElem_reverse]
    congr 1
    omega
  have h00 : l.reverse[0] = l[0] := List.getElem_of_eq h hr0
  rw [h00] at hrev
  exact absurd ((List.Nodup.getElem_inj_iff hnd).mp hrev) (by omega)

/-- C7: `Permutation5Verifier.Verify` awards first prize exactly when
both red lists have length 5 and agree at every position; otherwise it
returns the no-win triple without error; reversing a matching row of
pairwise distinct tokens turns the win into a non-win. -/
theorem p5Verify_complete_spec (t : UserTicket) (win : WinningNumbers) :
    (p5Verify t win = (1, 100000, "一等奖") ↔
      (t.red.length = 5 ∧ win.red.length = 5 ∧ t.red = win.red)) ∧
    (¬(t.red.length = 5 ∧ win.red.length = 5 ∧ t.red = win.red) →
      p5Verify t win = (0, 0, "未中奖")) ∧
    (t.red = win.red → t.red.length = 5 → t.red.Nodup →
      p5Verify { t with red := t.red.reverse } win = (0, 0, "未中奖")) := by
  refine ⟨⟨?_, p5Verify_eq_of_match t win⟩, p5Verify_eq_of_no_match t win, ?_⟩
  · intro h
    by_contra hc
    rw [p5Verify_eq_of_no_match t win hc] at h
    exact absurd (congrArg (fun tr => tr.2.1) h) (by decide)
  · intro heq h5 hnd
    refine p5Verify_eq_of_no_match _ win ?_
    rintro ⟨-, -, hrev⟩
    exact reverse_ne_self_of_nodup_len5 t.red h5 hnd (by rw [← heq] at hrev; exact hrev)

theorem p5Verify_complete_spec_witness :
    p5Verify ⟨["1", "2", "3", "4", "5"], [], 1, ""⟩ ⟨["1", "2", "3", "4", "5"], []⟩ =
      (1, 100000, "一等奖") ∧
    p5Verify ⟨["5", "4", "3", "2", "1"], [], 1, ""⟩ ⟨["1", "2", "3", "4", "5"], []⟩ =
      (0, 0, "未中奖") := by
  constructor
  · exact (p5Verify_complete_spec ⟨["1", "2", "3", "4", "5"], [], 1, ""⟩
      ⟨["1", "2", "3", "4", "5"], []⟩).1.mpr (by decide)
  · exact (p5Verify_complete_spec ⟨["1", "2", "3", "4", "5"], [], 1, ""⟩
      ⟨["1", "2", "3", "4", "5"], []⟩).2.2 rfl (by decide) (by decide)

/-! ### Rank and payout are zero together -/

theorem dcAgg (win : WinningNumbers) (ps : List (List String × String)) :
    0 ≤ (ps.map (fun p => (dcPairTier win p).2)).sum ∧
    ((ps.map (effLevel win)).foldr minL 0 = 0 ↔
      (ps.map (fun p => (dcPairTier win p).2)).sum = 0) ∧
    (ps.map (effLevel win)).foldr minL 0 ≤ 6 := by
  induction ps with
  | nil => simp
  | cons p ps ih =>
      obtain ⟨ihs, ihiff, ihle⟩ := ih
      simp only [List.map_cons, List.sum_cons, List.foldr_cons]
      rcases dcTier_cases (intersect p.1 win.red) (blueHits win p.2) with ⟨h2, h1⟩ | ⟨h2, h1, h6⟩
      · have he : effLevel win p = 0 := by simp [effLevel, dcPairTier, h2]
        have hm : (dcPairTier win p).2 = 0 := h2
        rw [he, hm, minL_zero_left, Int.zero_add]
        exact ⟨ihs, ihiff, ihle⟩
      · have he : effLevel win p = (dcPairTier win p).1 := by
          simp [effLevel, dcPairTier, h2]
        rw [he]
        have h2' : 0 < (dcPairTier win p).2 := h2
        refine ⟨by omega, ?_, ?_⟩
        · constructor
          · intro hm
            exfalso
            revert hm
            unfold minL dcPairTier
            split_ifs <;> omega
          · intro hs
            exfalso
            have : 0 < (dcPairTier win p).2 := h2
            omega
        · unfold minL dcPairTier
          split_ifs <;> omega

theorem lottoTier_cases (r b : Nat) :
    ((lottoTier r b).2 = 0 ∧ (lottoTier r b).1 = 0) ∨
      (0 < (lottoTier r b).2 ∧ 1 ≤ (lottoTier r b).1 ∧ (lottoTier r b).1 ≤ 9) := by
  rw [lottoTier_eq_table]
  rcases r with _ | _ | _ | _ | _ | _ | r <;> rcases b with _ | _ | _ | b <;>
    simp [lottoTable]

theorem p5Verify_cases (t : UserTicket) (win : WinningNumbers) :
    ((p5Verify t win).1 = 1 ∧ (p5Verify t win).2.1 = 100000) ∨
      ((p5Verify t win).1 = 0 ∧ (p5Verify t win).2.1 = 0) := by
  by_cases h : t.red.length = 5 ∧ win.red.length = 5 ∧ t.red = win.red
  · rw [p5Verify_eq_of_match t win h]
    left
    exact ⟨rfl, rfl⟩
  · rw [p5Verify_eq_of_no_match t win h]
    right
    exact ⟨rfl, rfl⟩

/-- C10: for each verifier, the returned rank is nonzero exactly when the
returned payout is nonzero, and a nonzero payout comes with a rank
between 1 and 9. -/
theorem rank_payout_consistent (t : UserTicket) (win : WinningNumbers) :
    ((dcVerify t win).1 = 0 ↔ (dcVerify t win).2.1 = 0) ∧
    ((dcVerify t win).2.1 ≠ 0 → 1 ≤ (dcVerify t win).1 ∧ (dcVerify t win).1 ≤ 9) ∧
    ((lottoVerify t win).1 = 0 ↔ (lottoVerify t win).2.1 = 0) ∧
    ((lottoVerify t win).2.1 ≠ 0 → 1 ≤ (lottoVerify t win).1 ∧ (lottoVerify t win).1 ≤ 9) ∧
    ((p5Verify t win).1 = 0 ↔ (p5Verify t win).2.1 = 0) ∧
    ((p5Verify t win).2.1 ≠ 0 → 1 ≤ (p5Verify t win).1 ∧ (p5Verify t win).1 ≤ 9) := by
  obtain ⟨hs, hiff, hle⟩ := dcAgg win (pairAll (combinations t.red 6) t.blue)
  have hdf : (dcVerify t win).1 =
      ((pairAll (combinations t.red 6) t.blue).map (effLevel win)).foldr minL 0 := by
    rw [dcVerify_fst, dcFoldl, minL_zero_left]
  have hdm : (dcVerify t win).2.1 =
      ((pairAll (combinations t.red 6) t.blue).map (fun p => (dcPairTier win p).2)).sum := by
    rw [dcVerify_money, dcFoldl, Int.zero_add]
  refine ⟨?_, ?_, ?_, ?_, ?_, ?_⟩
  · rw [hdf, hdm]; exact hiff
  · rw [hdf, hdm]
    intro hne
    have : ¬(((pairAll (combinations t.red 6) t.blue).map (effLevel win)).foldr minL 0 = 0) :=
      fun h => hne (hiff.mp h)
    omega
  · rw [lottoVerify_fst, lottoVerify_money]
    rcases lottoTier_cases (intersect t.red win.red) (intersect t.blue win.blue) with
      ⟨h2, h1⟩ | ⟨h2, h1, h9⟩
    · simp [h1, h2]
    · constructor
      · intro h; omega
      · intro h; omega
  · rw [lottoVerify_fst, lottoVerify_money]
    rcases lottoTier_cases (intersect t.red win.red) (intersect t.blue win.blue) with
      ⟨h2, h1⟩ | ⟨h2, h1, h9⟩
    · intro h; simp [h2] at h
    · intro h; exact ⟨h1, h9⟩
  · rcases p5Verify_cases t win with ⟨h1, h2⟩ | ⟨h1, h2⟩
    · simp [h1, h2]
    · simp [h1, h2]
  · rcases p5Verify_cases t win with ⟨h1, h2⟩ | ⟨h1, h2⟩
    · intro h; rw [h1]; omega
    · intro h; simp [h2] at h

theorem rank_payout_consistent_witness :
    (1 ≤ (dcVerify ⟨["02", "11", "15", "21", "28", "33"], ["07"], 1, ""⟩
        ⟨["02", "11", "15", "21", "28", "33"], ["07"]⟩).1 ∧
     (dcVerify ⟨["02", "11", "15", "21", "28", "33"], ["07"], 1, ""⟩
        ⟨["02", "11", "15", "21", "28", "33"], ["07"]⟩).1 ≤ 9) ∧
    (1 ≤ (lottoVerify ⟨["01", "02", "03", "04", "05"], ["01", "02"], 1, ""⟩
        ⟨["01", "02", "03", "04", "05"], ["01", "02"]⟩).1 ∧
     (lottoVerify ⟨["01", "02", "03", "04", "05"], ["01", "02"], 1, ""⟩
        ⟨["01", "02", "03", "04", "05"], ["01", "02"]⟩).1 ≤ 9) := by
  constructor
  · exact (rank_payout_consistent ⟨["02", "11", "15", "21", "28", "33"], ["07"], 1, ""⟩
      ⟨["02", "11", "15", "21", "28", "33"], ["07"]⟩).2.1 (by decide)
  · exact (rank_payout_consistent ⟨["01", "02", "03", "04", "05"], ["01", "02"], 1, ""⟩
      ⟨["01", "02", "03", "04", "05"], ["01", "02"]⟩).2.2.2.1 (by decide)

/-! ### Verifier dispatch in `verifyHandler` -/

/-- C8: the verifier is resolved by substring containment in the fixed
order DoubleColor label, Lotto label, Permutation5 label, first match
winning; with no match the lottery's result is total payout `0` with the
single unsupported-game detail and no row is scored. -/
theorem evalLottery_dispatch_spec (label : String) (tickets : List UserTicket)
    (win : WinningNumbers) :
    (goContains label "双色球" = true →
      evalLottery label tickets win = evalWith dcVerify tickets win) ∧
    (goContains label "双色球" = false → goContains label "大乐透" = true →
      evalLottery label tickets win = evalWith lottoVerify tickets win) ∧
    (goContains label "双色球" = false → goContains label "大乐透" = false →
      goContains label "排列5" = true →
      evalLottery label tickets win = evalWith p5Verify tickets win) ∧
    (goContains label "双色球" = false → goContains label "大乐透" = false →
      goContains label "排列5" = false →
      evalLottery label tickets win = (0, [⟨0, 0, 0, "暂不支持该彩种验奖"⟩])) := by
  refine ⟨?_, ?_, ?_, ?_⟩
  · intro h1
    simp [evalLottery, resolveVerifier, h1]
  · intro h1 h2
    simp [evalLottery, resolveVerifier, h1, h2]
  · intro h1 h2 h3
    simp [evalLottery, resolveVerifier, h1, h2, h3]
  · intro h1 h2 h3
    simp [evalLottery, resolveVerifier, h1, h2, h3]

theorem evalLottery_dispatch_spec_witness :
    goContains "双色球大乐透" "双色球" = true ∧
    evalLottery "双色球大乐透" [] ⟨["00"], ["00"]⟩ =
      evalWith dcVerify [] ⟨["00"], ["00"]⟩ ∧
    goContains "Scratch-off" "双色球" = false ∧
    goContains "Scratch-off" "大乐透" = false ∧
    goContains "Scratch-off" "排列5" = false ∧
    evalLottery "Scratch-off" [⟨["01"], ["02"], 1, ""⟩] ⟨["00"], ["00"]⟩ =
      (0, [⟨0, 0, 0, "暂不支持该彩种验奖"⟩]) := by
  refine ⟨by decide, ?_, by decide, by decide, by decide, ?_⟩
  · exact (evalLottery_dispatch_spec "双色球大乐透" [] ⟨["00"], ["00"]⟩).1 (by decide)
  · exact (evalLottery_dispatch_spec "Scratch-off" [⟨["01"], ["02"], 1, ""⟩]
      ⟨["00"], ["00"]⟩).2.2.2 (by decide) (by decide) (by decide)

/-! ### Absent guards: combination blow-up and payout overflow -/

/-- C2 (refuting): `DoubleColorVerifier.Verify` imposes no upper bound on
the number of red tokens and has no error channel at all: a 20-token row
is expanded into all `C(20, 6) = 38760` six-token combinations, and an
over-sized row is scored to a normal result rather than rejected. -/
theorem dc_no_expansion_limit :
    (combinations (List.replicate 20 "01") 6).length = 38760 ∧
    dcVerify ⟨List.replicate 8 "01", ["01"], 1, ""⟩ ⟨["02"], ["03"]⟩ =
      (0, 0, "未中奖") := by
  constructor
  · rw [combinations_length]
    simp only [List.length_replicate]
    decide
  · decide

/-- C3 (refuting the overflow-error half): the evaluator's
`prize * int64(multiplier)` is exact for the largest tier payout at
realistic multipliers, but on 64-bit overflow it wraps modulo `2^64` to a
negative total instead of failing; the wrapped value propagates into the
ticket's total prize. -/
theorem rowTotal_wraps_on_overflow :
    rowTotal 10000000 10000 = 100000000000 ∧
    rowTotal 10000000 922337203686 = -9223372036849551616 ∧
    rowTotal 10000000 922337203686 ≠ (10000000 : Int) * 922337203686 ∧
    rowTotal 10000000 922337203686 < 0 ∧
    (evalWith lottoVerify
        [⟨["01", "02", "03", "04", "05"], ["01", "02"], 922337203686, ""⟩]
        ⟨["01", "02", "03", "04", "05"], ["01", "02"]⟩).1 =
      -9223372036849551616 := by
  refine ⟨by decide, by decide, by decide, by decide, by decide⟩

end LotteryScan
